import Mathlib

/-
Verification development for the boolean truth-table generator
(src/truth_table_generator.py).  The source pipeline is:

  parse_boolean_expression : strip the input, substitute the user symbols
    for the evaluator symbols, extract the sorted variable names, and parse
    the substituted string with the external engine (sympify);
  generate_truth_table : enumerate itertools.product([0, 1], repeat=N) and
    evaluate the expression on every assignment;
  create_docx_table : lay the rows out under a header row, with a caption
    paragraph holding the expression text;
  main : reprompt until parsing succeeds, then generate and render.

Strings are modelled through their character lists; machine behaviour that
the source delegates to the Python runtime (str.strip, str.replace,
re.findall, enumerate, itertools.product, int(bool(..))) is embedded
directly below.
-/

/-- Abstract syntax of parsed Boolean expressions: the fragment of engine
expressions reachable from the substituted input (variable leaves, negation,
conjunction, disjunction). -/
inductive BExpr where
  | var : String → BExpr
  | not : BExpr → BExpr
  | and : BExpr → BExpr → BExpr
  | or : BExpr → BExpr → BExpr
deriving DecidableEq

/-- Evaluation of a parsed expression under a Boolean assignment; this is the
effect of expr.subs(val_dict) with 0/1 values followed by bool(..) in the
source (line 73). -/
def BExpr.eval : BExpr → (String → Bool) → Bool
  | BExpr.var s, env => env s
  | BExpr.not e, env => !(BExpr.eval e env)
  | BExpr.and a b, env => BExpr.eval a env && BExpr.eval b env
  | BExpr.or a b, env => BExpr.eval a env || BExpr.eval b env

/-- Whitespace characters removed by str.strip with no argument (ASCII
portion; the claims exercise only ASCII input). -/
def isPySpace (c : Char) : Bool :=
  c == ' ' || c == '\t' || c == '\n' || c == '\r' || c == '\x0b' || c == '\x0c'

/-- Embedding of str.strip(): drop leading and trailing whitespace. -/
def pyStrip (s : String) : String :=
  String.mk (((s.data.dropWhile isPySpace).reverse.dropWhile isPySpace).reverse)

/-- Embedding of str.replace(pat, rep): scan left to right, replacing each
non-overlapping occurrence of pat.  The fuel argument only makes the
recursion structural; every call site supplies enough fuel to finish. -/
def pyReplaceAux (pat rep : List Char) : Nat → List Char → List Char
  | 0, l => l
  | _, [] => []
  | fuel + 1, c :: cs =>
    if (c :: cs).take pat.length = pat then
      rep ++ pyReplaceAux pat rep fuel ((c :: cs).drop pat.length)
    else
      c :: pyReplaceAux pat rep fuel cs

/-- Embedding of str.replace for nonempty patterns. -/
def pyReplace (s pat rep : String) : String :=
  String.mk (pyReplaceAux pat.data rep.data (s.data.length + 1) s.data)

/-- Lines 41-45 of the source: the chain of five str.replace calls taking the
user notation to the evaluator notation. -/
def substituteSymbols (s : String) : String :=
  pyReplace (pyReplace (pyReplace (pyReplace (pyReplace s "¬" "~") "*" "&") "^" "&") "+" "|") "∨" "|"

/-- The character-level reading of the five substitutions: each occurrence of
a user symbol maps to the corresponding evaluator symbol, every other
character is left alone. -/
def subChar (c : Char) : Char :=
  if c = '¬' then '~'
  else if c = '*' then '&'
  else if c = '^' then '&'
  else if c = '+' then '|'
  else if c = '∨' then '|'
  else c

/-- Word characters of the identifier pattern [A-Za-z0-9_]. -/
def isWordChar (c : Char) : Bool := c.isAlpha || c.isDigit || c == '_'

/-- Leading characters of the identifier pattern [A-Za-z_]. -/
def isIdentStart (c : Char) : Bool := c.isAlpha || c == '_'

/-- Embedding of re.findall with the identifier pattern (line 48): scan the
maximal word-character runs left to right; a run is reported exactly when its
first character is a letter or an underscore (the word-boundary anchors of
the pattern reject runs led by a digit).  Fuel only makes the recursion
structural. -/
def findTokensAux : Nat → List Char → List String
  | 0, _ => []
  | _, [] => []
  | fuel + 1, c :: cs =>
    if isWordChar c then
      if isIdentStart c then
        String.mk (c :: cs.takeWhile isWordChar) :: findTokensAux fuel (cs.dropWhile isWordChar)
      else
        findTokensAux fuel (cs.dropWhile isWordChar)
    else
      findTokensAux fuel cs

/-- All identifier tokens of a string, in order of occurrence. -/
def findTokens (s : String) : List String := findTokensAux (s.data.length + 1) s.data

/-- Strict lexicographic comparison of character lists by code point; this is
the string comparison the source language applies inside sorted(). -/
def charListLt : List Char → List Char → Bool
  | [], [] => false
  | [], _ :: _ => true
  | _ :: _, [] => false
  | c :: cs, d :: ds =>
    if c.toNat < d.toNat then true
    else if d.toNat < c.toNat then false
    else charListLt cs ds

/-- Strict ordinal (code-point lexicographic) comparison of strings. -/
def strLtB (a b : String) : Bool := charListLt a.data b.data

/-- Insert a string into an ascending list, before the first strictly larger
element. -/
def insertAsc (x : String) : List String → List String
  | [] => [x]
  | y :: ys => if strLtB x y then x :: y :: ys else y :: insertAsc x ys

/-- Ascending insertion sort under the ordinal comparison; the embedding of
sorted() on a list of distinct strings. -/
def sortStrings : List String → List String
  | [] => []
  | x :: xs => insertAsc x (sortStrings xs)

/-- Line 48: sorted(set(re.findall(..))) — the distinct identifier tokens in
ascending string order. -/
def vars_names_of (expr_str : String) : List String :=
  sortStrings (findTokens expr_str).dedup

/-- Token alphabet of the substituted expression strings. -/
inductive Tok where
  | tnot : Tok
  | tand : Tok
  | tor : Tok
  | lpar : Tok
  | rpar : Tok
  | ident : String → Tok
deriving DecidableEq

/-- Modelled from the spec: the lexer of the external parsing engine
(sympify), which accepts the canonical logical operators, parentheses and
identifier tokens and skips whitespace (spec sections 4.1 and 6).  Numeric
literals and other characters are out of the modelled fragment and yield a
lexical error.  Fuel only makes the recursion structural. -/
def tokenizeAux : Nat → List Char → Except String (List Tok)
  | 0, _ => Except.error "could not tokenize expression"
  | _, [] => Except.ok []
  | fuel + 1, c :: cs =>
    if isPySpace c then tokenizeAux fuel cs
    else if c = '~' then (tokenizeAux fuel cs).map (fun ts => Tok.tnot :: ts)
    else if c = '&' then (tokenizeAux fuel cs).map (fun ts => Tok.tand :: ts)
    else if c = '|' then (tokenizeAux fuel cs).map (fun ts => Tok.tor :: ts)
    else if c = '(' then (tokenizeAux fuel cs).map (fun ts => Tok.lpar :: ts)
    else if c = ')' then (tokenizeAux fuel cs).map (fun ts => Tok.rpar :: ts)
    else if isIdentStart c then
      (tokenizeAux fuel (cs.dropWhile isWordChar)).map
        (fun ts => Tok.ident (String.mk (c :: cs.takeWhile isWordChar)) :: ts)
    else Except.error "unrecognized character in expression"

/-- Token list of a substituted expression string. -/
def tokenize (s : String) : Except String (List Tok) :=
  tokenizeAux (s.data.length + 1) s.data

mutual

/-- Modelled from the spec: disjunction layer of the engine grammar — OR has
the lowest precedence and associates to the left (spec section 4.1). -/
def parseOrLevel : Nat → List Tok → Except String (BExpr × List Tok)
  | 0, _ => Except.error "expression too deeply nested"
  | fuel + 1, toks =>
    match parseAndLevel fuel toks with
    | Except.error m => Except.error m
    | Except.ok (e, rest) => parseOrTail fuel e rest

/-- Remaining OR-separated operands after the first one. -/
def parseOrTail : Nat → BExpr → List Tok → Except String (BExpr × List Tok)
  | 0, _, _ => Except.error "expression too deeply nested"
  | fuel + 1, acc, toks =>
    match toks with
    | Tok.tor :: rest =>
      match parseAndLevel fuel rest with
      | Except.error m => Except.error m
      | Except.ok (e, rest2) => parseOrTail fuel (BExpr.or acc e) rest2
    | _ => Except.ok (acc, toks)

/-- Conjunction layer: AND binds tighter than OR and associates left. -/
def parseAndLevel : Nat → List Tok → Except String (BExpr × List Tok)
  | 0, _ => Except.error "expression too deeply nested"
  | fuel + 1, toks =>
    match parseUnaryLevel fuel toks with
    | Except.error m => Except.error m
    | Except.ok (e, rest) => parseAndTail fuel e rest

/-- Remaining AND-separated operands after the first one. -/
def parseAndTail : Nat → BExpr → List Tok → Except String (BExpr × List Tok)
  | 0, _, _ => Except.error "expression too deeply nested"
  | fuel + 1, acc, toks =>
    match toks with
    | Tok.tand :: rest =>
      match parseUnaryLevel fuel rest with
      | Except.error m => Except.error m
      | Except.ok (e, rest2) => parseAndTail fuel (BExpr.and acc e) rest2
    | _ => Except.ok (acc, toks)

/-- Negation layer: NOT binds tightest and may be iterated. -/
def parseUnaryLevel : Nat → List Tok → Except String (BExpr × List Tok)
  | 0, _ => Except.error "expression too deeply nested"
  | fuel + 1, Tok.tnot :: rest =>
    match parseUnaryLevel fuel rest with
    | Except.error m => Except.error m
    | Except.ok (e, rest2) => Except.ok (BExpr.not e, rest2)
  | fuel + 1, toks => parseAtom fuel toks

/-- Atoms: a variable leaf or a parenthesized subexpression. -/
def parseAtom : Nat → List Tok → Except String (BExpr × List Tok)
  | 0, _ => Except.error "expression too deeply nested"
  | _ + 1, Tok.ident s :: rest => Except.ok (BExpr.var s, rest)
  | fuel + 1, Tok.lpar :: rest =>
    match parseOrLevel fuel rest with
    | Except.error m => Except.error m
    | Except.ok (e, rest2) =>
      match rest2 with
      | Tok.rpar :: rest3 => Except.ok (e, rest3)
      | _ => Except.error "unbalanced parentheses"
  | _ + 1, _ => Except.error "invalid operand"

end

/-- Modelled from the spec: sympify, the external Boolean-expression parsing
engine (spec section 6) — it compiles the substituted string against the
extracted identifiers as named leaves, with standard precedence NOT over AND
over OR, left associativity, and parentheses overriding; malformed input
(unbalanced parentheses, stray operators, trailing tokens) is rejected with a
reason string.  The reason texts abstract the engine exception messages. -/
def sympify (s : String) : Except String BExpr :=
  match tokenize s with
  | Except.error m => Except.error m
  | Except.ok toks =>
    match parseOrLevel (4 * toks.length + 4) toks with
    | Except.error m => Except.error m
    | Except.ok (e, []) => Except.ok e
    | Except.ok (_, _ :: _) => Except.error "unexpected trailing input"

/-- Message of the ValueError raised at line 37 of the source. -/
def emptyExprMsg : String := "Expression cannot be empty."

/-- Message of the ValueError raised at line 50 of the source. -/
def noVarsMsg : String :=
  "No valid variables found in expression (expected names like x1, x_2, F)."

/-- Message of the wrapping ValueError raised at line 62 of the source: the
f-string interpolating the stripped input and the inner exception text. -/
def invalidExprMsg (expr_input inner : String) : String :=
  "Invalid Boolean expression: \x27" ++ expr_input ++ "\x27.\nError: " ++ inner

/-- Lines 16-62 of the source.  The input is stripped; an empty result is
rejected outright (line 37, raised before the try block, hence unwrapped).
Inside the try block the symbols are substituted, the sorted variable names
extracted, and the string parsed; any exception raised there — including the
no-variables ValueError of line 50 — is caught by the blanket handler of
line 61 and re-raised wrapped in the invalid-expression message, which the
embedding produces directly.  The source returns sympy Symbol objects
alongside their names; the model identifies a symbol with its name, so the
pair carries the expression and the sorted name list once. -/
def parse_boolean_expression (raw : String) : Except String (BExpr × List String) :=
  let expr_input := pyStrip raw
  if expr_input = "" then Except.error emptyExprMsg
  else
    let expr_str := substituteSymbols expr_input
    let vars_names := vars_names_of expr_str
    if vars_names = [] then Except.error (invalidExprMsg expr_input noVarsMsg)
    else
      match sympify expr_str with
      | Except.ok e => Except.ok (e, vars_names)
      | Except.error m => Except.error (invalidExprMsg expr_input m)

/-- itertools.product([0, 1], repeat=n): every 0/1 tuple of length n, in
lexicographic order (the last coordinate varies fastest). -/
def product01 : Nat → List (List Nat)
  | 0 => [[]]
  | n + 1 => (product01 n).map (fun t => 0 :: t) ++ (product01 n).map (fun t => 1 :: t)

/-- The binary digits of i written in n bits, most significant first. -/
def natBits : Nat → Nat → List Nat
  | 0, _ => []
  | n + 1, i => (i / 2 ^ n) % 2 :: natBits n (i % 2 ^ n)

/-- int(bool(x)) on a Boolean result. -/
def boolToInt (b : Bool) : Nat := if b then 1 else 0

/-- Line 72 of the source: the substitution dictionary built at line 72
(each source variable sent to its positionally matching value) read as an
assignment; the source parameter named after the variable list is called
vars here because its source name is a reserved word in Lean — a name is
sent to its positionally matching value; with duplicate names the later
binding wins, as in a dict comprehension.  The value 0 or 1 is read as a
Boolean. -/
def assignOf (vars : List String) (values : List Nat) (s : String) : Bool :=
  (((vars.zip values).reverse.find? (fun p => p.1 == s)).map
    (fun p => p.2 == 1)).getD false

/-- Lines 65-75 of the source: enumerate the assignments, evaluate the
expression on each, and emit the row [str(i)] + [str(v) for v in values] +
[str(int(bool(..)))]. -/
def generate_truth_table (sympy_expr : BExpr) (vars : List String) : List (List String) :=
  (product01 vars.length).enum.map
    (fun p =>
      toString p.1 ::
        (p.2.map (fun v => toString v) ++
          [toString (boolToInt (BExpr.eval sympy_expr (assignOf vars p.2)))]))

/-- The observable content of the rendered document: the caption paragraph
text and the table cell grid.  Fonts, centering and borders carry no data
and are not modelled. -/
structure DocxDoc where
  caption : String
  table : List (List String)
deriving DecidableEq

/-- Lines 78-135 of the source: the caption paragraph interpolates the
expression (line 89); the table holds len(rows_data) + 1 rows of
len(vars_names) + 2 cells, the header row being the index marker, the
variable names and the function marker (lines 110-115), and data row i
holding row i of rows_data cell by cell (lines 117-120).  Cells a row does
not fill stay empty; a row longer than the grid would raise IndexError in
the source, and every call site supplies rows of exactly the grid width. -/
def create_docx_table (rows_data : List (List String)) (vars_names : List String)
    (user_expression : String) : DocxDoc :=
  { caption := "Boolean function: " ++ user_expression
  , table :=
      ("№" :: vars_names ++ ["f"]) ::
        rows_data.map (fun r => (List.range (vars_names.length + 2)).map (fun j => r.getD j "")) }

/-- Lines 142-162 of the source, one pass of the input loop: the read line is
stripped; an empty or unparseable line is answered with a message and a
reprompt, so it produces no document; a parseable line flows through
generate_truth_table and create_docx_table into the saved document. -/
def runOnce (raw : String) : Option DocxDoc :=
  let user_input := pyStrip raw
  if user_input = "" then none
  else
    match parse_boolean_expression user_input with
    | Except.error _ => none
    | Except.ok (expr, vars_names) =>
      some (create_docx_table (generate_truth_table expr vars_names) vars_names user_input)

/-
Lemma layer: str.replace with a one-character pattern and a one-character
replacement is a character map.
-/

/-- One-character str.replace is a pointwise character substitution. -/
theorem pyReplaceAux_single (a b : Char) :
    ∀ (l : List Char) (fuel : Nat), l.length ≤ fuel →
      pyReplaceAux [a] [b] fuel l = l.map (fun c => if c = a then b else c) := by
  intro l
  induction l with
  | nil => intro fuel _; cases fuel <;> simp [pyReplaceAux]
  | cons c cs ih =>
    intro fuel hf
    cases fuel with
    | zero => exact absurd hf (by simp)
    | succ n =>
      have hn : cs.length ≤ n := Nat.le_of_succ_le_succ (by simpa using hf)
      by_cases h : c = a
      · subst h
        simp [pyReplaceAux, ih n hn]
      · simp [pyReplaceAux, h, ih n hn]

/-- String-level form of the previous lemma. -/
theorem pyReplace_single (s pat rep : String) (a b : Char)
    (hp : pat.data = [a]) (hr : rep.data = [b]) :
    pyReplace s pat rep = String.mk (s.data.map (fun c => if c = a then b else c)) := by
  unfold pyReplace
  rw [hp, hr]
  exact congrArg String.mk (pyReplaceAux_single a b s.data (s.data.length + 1) (Nat.le_succ _))

/-- The five one-character substitutions compose into subChar. -/
theorem subChar_chain (c : Char) :
    (if (if (if (if (if c = '¬' then '~' else c) = '*' then '&'
        else (if c = '¬' then '~' else c)) = '^' then '&'
        else (if (if c = '¬' then '~' else c) = '*' then '&'
        else (if c = '¬' then '~' else c))) = '+' then '|'
        else (if (if (if c = '¬' then '~' else c) = '*' then '&'
        else (if c = '¬' then '~' else c)) = '^' then '&'
        else (if (if c = '¬' then '~' else c) = '*' then '&'
        else (if c = '¬' then '~' else c)))) = '∨' then '|'
        else (if (if (if (if c = '¬' then '~' else c) = '*' then '&'
        else (if c = '¬' then '~' else c)) = '^' then '&'
        else (if (if c = '¬' then '~' else c) = '*' then '&'
        else (if c = '¬' then '~' else c))) = '+' then '|'
        else (if (if (if c = '¬' then '~' else c) = '*' then '&'
        else (if c = '¬' then '~' else c)) = '^' then '&'
        else (if (if c = '¬' then '~' else c) = '*' then '&'
        else (if c = '¬' then '~' else c))))) = subChar c := by
  by_cases h1 : c = '¬'
  · subst h1; rfl
  by_cases h2 : c = '*'
  · subst h2; rfl
  by_cases h3 : c = '^'
  · subst h3; rfl
  by_cases h4 : c = '+'
  · subst h4; rfl
  by_cases h5 : c = '∨'
  · subst h5; rfl
  simp [subChar, h1, h2, h3, h4, h5]

/-- The substitution chain of lines 41-45 acts as the character map subChar
on every input string: every occurrence of each user symbol is replaced. -/
theorem substituteSymbols_eq_map (s : String) :
    substituteSymbols s = String.mk (s.data.map subChar) := by
  unfold substituteSymbols
  rw [pyReplace_single _ _ _ '¬' '~' rfl rfl,
      pyReplace_single _ _ _ '*' '&' rfl rfl,
      pyReplace_single _ _ _ '^' '&' rfl rfl,
      pyReplace_single _ _ _ '+' '|' rfl rfl,
      pyReplace_single _ _ _ '∨' '|' rfl rfl]
  simp only [List.map_map]
  refine congrArg String.mk (List.map_congr_left ?_)
  intro c _
  simpa using subChar_chain c

/-
Lemma layer: the ordinal comparison is transitive and trichotomous, and the
insertion sort produces a strictly ascending permutation.
-/

/-- Transitivity of the ordinal comparison on character lists. -/
theorem charListLt_trans :
    ∀ a b c : List Char, charListLt a b = true → charListLt b c = true →
      charListLt a c = true := by
  intro a
  induction a with
  | nil =>
    intro b c hab hbc
    cases b with
    | nil => simp [charListLt] at hab
    | cons y ys =>
      cases c with
      | nil => simp [charListLt] at hbc
      | cons z zs => simp [charListLt]
  | cons x xs ih =>
    intro b c hab hbc
    cases b with
    | nil => simp [charListLt] at hab
    | cons y ys =>
      cases c with
      | nil => simp [charListLt] at hbc
      | cons z zs =>
        simp only [charListLt] at hab hbc ⊢
        rcases Nat.lt_trichotomy x.toNat y.toNat with h1 | h1 | h1
        · rcases Nat.lt_trichotomy y.toNat z.toNat with h2 | h2 | h2
          · rw [if_pos (Nat.lt_trans h1 h2)]
          · rw [if_pos (h2 ▸ h1)]
          · rw [if_neg (by omega), if_pos h2] at hbc
            exact absurd hbc (by simp)
        · rcases Nat.lt_trichotomy y.toNat z.toNat with h2 | h2 | h2
          · rw [if_pos (h1 ▸ h2)]
          · rw [if_neg (by omega), if_neg (by omega)] at hab hbc ⊢
            exact ih ys zs hab hbc
          · rw [if_neg (by omega), if_pos h2] at hbc
            exact absurd hbc (by simp)
        · rw [if_neg (by omega), if_pos h1] at hab
          exact absurd hab (by simp)

/-- Trichotomy: two character lists neither of which precedes the other are
equal. -/
theorem charListLt_antisymm :
    ∀ a b : List Char, charListLt a b = false → charListLt b a = false →
      a = b := by
  intro a
  induction a with
  | nil =>
    intro b hab _
    cases b with
    | nil => rfl
    | cons y ys => simp [charListLt] at hab
  | cons x xs ih =>
    intro b hab hba
    cases b with
    | nil => simp [charListLt] at hba
    | cons y ys =>
      simp only [charListLt] at hab hba
      rcases Nat.lt_trichotomy x.toNat y.toNat with h1 | h1 | h1
      · rw [if_pos h1] at hab
        exact absurd hab (by simp)
      · rw [if_neg (by omega), if_neg (by omega)] at hab hba
        have hx : x = y := Char.ext (UInt32.ext h1)
        rw [hx, ih ys hab hba]
      · rw [if_pos h1] at hba
        exact absurd hba (by simp)

/-- String forms of the two comparison lemmas. -/
theorem strLtB_trans {a b c : String} (hab : strLtB a b = true)
    (hbc : strLtB b c = true) : strLtB a c = true :=
  charListLt_trans a.data b.data c.data hab hbc

/-- Strings neither of which strictly precedes the other are equal. -/
theorem strLtB_antisymm {a b : String} (hab : strLtB a b = false)
    (hba : strLtB b a = false) : a = b :=
  String.ext (charListLt_antisymm a.data b.data hab hba)

/-- Inserting into a list permutes consing onto it. -/
theorem insertAsc_perm (x : String) :
    ∀ l : List String, List.Perm (insertAsc x l) (x :: l) := by
  intro l
  induction l with
  | nil => simp [insertAsc]
  | cons y ys ih =>
    by_cases h : strLtB x y = true
    · simp [insertAsc, h]
    · simp only [insertAsc]
      rw [if_neg h]
      exact List.Perm.trans (List.Perm.cons y ih) (List.Perm.swap x y ys)

/-- The sort permutes its input. -/
theorem sortStrings_perm : ∀ l : List String, List.Perm (sortStrings l) l := by
  intro l
  induction l with
  | nil => exact List.Perm.refl []
  | cons x xs ih =>
    exact List.Perm.trans (insertAsc_perm x (sortStrings xs)) (List.Perm.cons x ih)

/-- Inserting a fresh element into a strictly ascending list keeps it
strictly ascending. -/
theorem insertAsc_pairwise {x : String} :
    ∀ {l : List String}, l.Pairwise (fun a b => strLtB a b = true) → x ∉ l →
      (insertAsc x l).Pairwise (fun a b => strLtB a b = true) := by
  intro l
  induction l with
  | nil => intro _ _; simp [insertAsc]
  | cons y ys ih =>
    intro hp hx
    rcases List.pairwise_cons.mp hp with ⟨hy, hys⟩
    by_cases h : strLtB x y = true
    · simp only [insertAsc]
      rw [if_pos h]
      refine List.pairwise_cons.mpr ⟨?_, hp⟩
      intro z hz
      rcases List.mem_cons.mp hz with hz | hz
      · rw [hz]; exact h
      · exact strLtB_trans h (hy z hz)
    · simp only [insertAsc]
      rw [if_neg h]
      have hxy : x ≠ y := fun e => hx (e ▸ List.mem_cons_self y ys)
      have hxyf : strLtB x y = false := by
        cases hcase : strLtB x y with
        | false => rfl
        | true => exact absurd hcase h
      have hyx : strLtB y x = true := by
        cases hcase : strLtB y x with
        | false => exact absurd (strLtB_antisymm hxyf hcase) hxy
        | true => rfl
      refine List.pairwise_cons.mpr ⟨?_, ih hys (fun e => hx (List.mem_cons_of_mem y e))⟩
      intro z hz
      have hz2 : z ∈ x :: ys := (insertAsc_perm x ys).mem_iff.mp hz
      rcases List.mem_cons.mp hz2 with hz2 | hz2
      · rw [hz2]; exact hyx
      · exact hy z hz2

/-- Sorting a duplicate-free list yields a strictly ascending list. -/
theorem sortStrings_pairwise :
    ∀ {l : List String}, l.Nodup →
      (sortStrings l).Pairwise (fun a b => strLtB a b = true) := by
  intro l
  induction l with
  | nil => intro _; simp [sortStrings]
  | cons x xs ih =>
    intro hnd
    rcases List.nodup_cons.mp hnd with ⟨hx, hxs⟩
    exact insertAsc_pairwise (ih hxs)
      (fun e => hx ((sortStrings_perm xs).mem_iff.mp e))

/-- The extracted variable list is strictly ascending in the ordinal order. -/
theorem vars_names_of_sorted (s : String) :
    (vars_names_of s).Pairwise (fun a b => strLtB a b = true) :=
  sortStrings_pairwise (List.nodup_dedup _)

/-- The extracted variable list has no duplicates. -/
theorem vars_names_of_nodup (s : String) : (vars_names_of s).Nodup :=
  ((sortStrings_perm _).nodup_iff).mpr (List.nodup_dedup _)

/-- Membership in the extracted variable list is membership among the
identifier tokens. -/
theorem vars_names_of_mem (s : String) (x : String) :
    x ∈ vars_names_of s ↔ x ∈ findTokens s := by
  unfold vars_names_of
  rw [(sortStrings_perm _).mem_iff]
  exact List.mem_dedup

/-
Lemma layer: the assignment enumeration is the binary counting sequence.
-/

/-- The product has 2 to the n tuples. -/
theorem product01_length (n : Nat) : (product01 n).length = 2 ^ n := by
  induction n with
  | zero => rfl
  | succ n ih =>
    simp [product01, ih, Nat.pow_succ]
    omega

/-- natBits produces n digits. -/
theorem natBits_length (n i : Nat) : (natBits n i).length = n := by
  induction n generalizing i with
  | zero => rfl
  | succ n ih => simp [natBits, ih]

/-- Every digit natBits produces is 0 or 1. -/
theorem natBits_mem (n i : Nat) : ∀ v ∈ natBits n i, v = 0 ∨ v = 1 := by
  induction n generalizing i with
  | zero => intro v hv; simp [natBits] at hv
  | succ n ih =>
    intro v hv
    rcases List.mem_cons.mp hv with hv | hv
    · subst hv; omega
    · exact ih (i % 2 ^ n) v hv

/-- Tuple i of the product is the n-bit binary spelling of i, most
significant digit first. -/
theorem product01_getElem? (n : Nat) :
    ∀ i : Nat, i < 2 ^ n → (product01 n)[i]? = some (natBits n i) := by
  induction n with
  | zero =>
    intro i hi
    have : i = 0 := by omega
    subst this
    rfl
  | succ n ih =>
    intro i hi
    have hlen : ((product01 n).map (fun t => 0 :: t)).length = 2 ^ n := by
      simp [product01_length]
    by_cases h : i < 2 ^ n
    · rw [product01, List.getElem?_append_left (by omega)]
      rw [List.getElem?_map, ih i h]
      have h1 : i / 2 ^ n = 0 := Nat.div_eq_of_lt h
      have h2 : i % 2 ^ n = i := Nat.mod_eq_of_lt h
      simp [natBits, h1, h2]
    · rw [product01, List.getElem?_append_right (by omega)]
      rw [List.getElem?_map, hlen]
      have hpow : 2 ^ (n + 1) = 2 ^ n + 2 ^ n := by
        rw [Nat.pow_succ]; omega
      have hi2 : i - 2 ^ n < 2 ^ n := by omega
      rw [ih (i - 2 ^ n) hi2]
      have h1 : i / 2 ^ n = 1 := by
        apply Nat.div_eq_of_lt_le <;> omega
      have h2 : i % 2 ^ n = i - 2 ^ n := by
        rw [Nat.mod_eq_sub_mod (by omega), Nat.mod_eq_of_lt hi2]
      simp [natBits, h1, h2]

/-- Every tuple of the product has length n and entries 0 or 1. -/
theorem product01_shape (n : Nat) :
    ∀ t ∈ product01 n, t.length = n ∧ ∀ v ∈ t, v = 0 ∨ v = 1 := by
  induction n with
  | zero =>
    intro t ht
    rcases List.mem_singleton.mp ht with rfl
    exact ⟨rfl, by intro v hv; simp at hv⟩
  | succ n ih =>
    intro t ht
    rcases List.mem_append.mp ht with h | h <;>
      rcases List.mem_map.mp h with ⟨u, hu, rfl⟩ <;>
      rcases ih u hu with ⟨hl, hv⟩
    · refine ⟨by simp [hl], ?_⟩
      intro v hv2
      rcases List.mem_cons.mp hv2 with rfl | hv2
      · exact Or.inl rfl
      · exact hv v hv2
    · refine ⟨by simp [hl], ?_⟩
      intro v hv2
      rcases List.mem_cons.mp hv2 with rfl | hv2
      · exact Or.inr rfl
      · exact hv v hv2

/-- The table has one row per assignment: 2 to the number of variables. -/
theorem generate_truth_table_length (e : BExpr) (vs : List String) :
    (generate_truth_table e vs).length = 2 ^ vs.length := by
  unfold generate_truth_table
  rw [List.length_map, List.enum_length, product01_length]

/-- Row i of the table spelled out: the index string, the digit strings of i,
and the evaluated function string. -/
theorem generate_truth_table_getElem? (e : BExpr) (vs : List String)
    (i : Nat) (hi : i < 2 ^ vs.length) :
    (generate_truth_table e vs)[i]? =
      some (toString i ::
        ((natBits vs.length i).map (fun v => toString v) ++
          [toString (boolToInt (BExpr.eval e (assignOf vs (natBits vs.length i))))])) := by
  unfold generate_truth_table
  rw [List.getElem?_map, List.getElem?_enum, product01_getElem? _ i hi]
  rfl

/-
Lemma layer: looking up the k-th variable in the substitution dictionary
yields the k-th value, provided the variable names are distinct.
-/

/-- The last binding found for the k-th key of a duplicate-free zip is its
positional value. -/
theorem find?_revzip :
    ∀ (vs : List String) (values : List Nat) (k : Nat), vs.Nodup →
      values.length = vs.length → k < vs.length →
      (vs.zip values).reverse.find? (fun p => p.1 == vs.getD k "") =
        some (vs.getD k "", values.getD k 0) := by
  intro vs
  induction vs with
  | nil => intro values k _ _ hk; simp at hk
  | cons v vt ih =>
    intro values k hnd hlen hk
    cases values with
    | nil => simp at hlen
    | cons w wt =>
      have hzip : ((v :: vt).zip (w :: wt)).reverse =
          (vt.zip wt).reverse ++ [(v, w)] := by simp
      rw [hzip, List.find?_append]
      cases k with
      | zero =>
        have hleft : (vt.zip wt).reverse.find? (fun p => p.1 == (v :: vt).getD 0 "") = none := by
          apply List.find?_eq_none.mpr
          intro p hp
          rcases p with ⟨a, b⟩
          have ha : a ∈ vt := (List.of_mem_zip (List.mem_reverse.mp hp)).1
          have hv : v ∉ vt := (List.nodup_cons.mp hnd).1
          simp only [List.getD_cons_zero]
          simp only [beq_iff_eq]
          intro e
          exact hv (e ▸ ha)
        rw [hleft]
        simp [List.find?]
      | succ k =>
        have hleft := ih wt k (List.nodup_cons.mp hnd).2
          (by simpa using hlen) (by simpa using hk)
        simp only [List.getD_cons_succ]
        rw [hleft]
        simp [Option.or]

/-- Line 72 read positionally: the dictionary sends the k-th variable to the
truth of the k-th value. -/
theorem assignOf_getD (vs : List String) (values : List Nat)
    (hnd : vs.Nodup) (hlen : values.length = vs.length)
    (k : Nat) (hk : k < vs.length) :
    assignOf vs values (vs.getD k "") = (values.getD k 0 == 1) := by
  unfold assignOf
  rw [find?_revzip vs values k hnd hlen hk]
  rfl

/-
Claim theorems.
-/

/-- C1: for every expression and variable list, generate_truth_table produces
exactly 2 to the number of variables rows, and for every i below that count
row i starts with the index string of i — the rows are indexed 0 through
2 to the N minus 1 in order. -/
theorem C1_enumerator_row_count (e : BExpr) (vs : List String) :
    (generate_truth_table e vs).length = 2 ^ vs.length ∧
    ∀ i : Nat, i < 2 ^ vs.length →
      ∃ rest : List String,
        (generate_truth_table e vs)[i]? = some (toString i :: rest) := by
  refine ⟨generate_truth_table_length e vs, ?_⟩
  intro i hi
  exact ⟨_, generate_truth_table_getElem? e vs i hi⟩

/-- C1 witness: the row-count theorem applied at a concrete expression,
variable list and index. -/
theorem C1_enumerator_row_count_witness :
    (generate_truth_table (BExpr.var "A") ["A", "B"]).length = 2 ^ 2 ∧
    ∃ rest : List String,
      (generate_truth_table (BExpr.var "A") ["A", "B"])[3]? = some (toString 3 :: rest) :=
  ⟨(C1_enumerator_row_count (BExpr.var "A") ["A", "B"]).1,
   (C1_enumerator_row_count (BExpr.var "A") ["A", "B"]).2 3 (by decide)⟩

/-- C2: row i of the table lists the binary digits of i in N bits, most
significant digit first, and the substitution dictionary binds the k-th
variable of the duplicate-free variable list to digit k of the row. -/
theorem C2_assignment_binary_order (e : BExpr) (vs : List String)
    (hnd : vs.Nodup) (i : Nat) (hi : i < 2 ^ vs.length) :
    (generate_truth_table e vs)[i]? =
      some (toString i ::
        ((natBits vs.length i).map (fun v => toString v) ++
          [toString (boolToInt (BExpr.eval e (assignOf vs (natBits vs.length i))))])) ∧
    ∀ k : Nat, k < vs.length →
      assignOf vs (natBits vs.length i) (vs.getD k "") =
        ((natBits vs.length i).getD k 0 == 1) := by
  refine ⟨generate_truth_table_getElem? e vs i hi, ?_⟩
  intro k hk
  exact assignOf_getD vs (natBits vs.length i) hnd (natBits_length _ _) k hk

/-- C2 witness: the binary-order theorem applied at a concrete expression,
variable list, row index and bit position. -/
theorem C2_assignment_binary_order_witness :
    (generate_truth_table (BExpr.var "A") ["A", "B"])[2]? =
      some (toString 2 ::
        ((natBits 2 2).map (fun v => toString v) ++
          [toString (boolToInt (BExpr.eval (BExpr.var "A") (assignOf ["A", "B"] (natBits 2 2))))])) ∧
    assignOf ["A", "B"] (natBits 2 2) (["A", "B"].getD 1 "") = ((natBits 2 2).getD 1 0 == 1) :=
  ⟨(C2_assignment_binary_order (BExpr.var "A") ["A", "B"] (by decide) 2 (by decide)).1,
   (C2_assignment_binary_order (BExpr.var "A") ["A", "B"] (by decide) 2 (by decide)).2 1 (by decide)⟩

/-- C3: variable extraction returns exactly the identifier tokens of the
string, duplicate-free and strictly ascending in the case-sensitive ordinal
order — hence independent of occurrence order — and the input B+A yields
variable order [A, B]. -/
theorem C3_extraction_sorted :
    (∀ s : String,
      (vars_names_of s).Pairwise (fun a b => strLtB a b = true) ∧
      (vars_names_of s).Nodup ∧
      ∀ x : String, x ∈ vars_names_of s ↔ x ∈ findTokens s) ∧
    (∃ e : BExpr, parse_boolean_expression "B+A" = Except.ok (e, ["A", "B"])) := by
  refine ⟨fun s => ⟨vars_names_of_sorted s, vars_names_of_nodup s, vars_names_of_mem s⟩, ?_⟩
  exact ⟨BExpr.or (BExpr.var "B") (BExpr.var "A"), rfl⟩

/-- C4: translation is a purely lexical substitution — on every string each
NOT-symbol becomes the negation operator, each star and each caret the AND
operator, each plus and each OR-symbol the OR operator, all else unchanged —
and A^B^C parses to the conjunction of its three variables, whose table has
8 rows with function value 1 exactly at the all-ones assignment. -/
theorem C4_lexical_substitution :
    (∀ s : String, substituteSymbols s = String.mk (s.data.map subChar)) ∧
    (∃ e : BExpr,
      parse_boolean_expression "A^B^C" = Except.ok (e, ["A", "B", "C"]) ∧
      (∀ env : String → Bool, BExpr.eval e env = (env "A" && env "B" && env "C")) ∧
      generate_truth_table e ["A", "B", "C"] =
        [["0", "0", "0", "0", "0"],
         ["1", "0", "0", "1", "0"],
         ["2", "0", "1", "0", "0"],
         ["3", "0", "1", "1", "0"],
         ["4", "1", "0", "0", "0"],
         ["5", "1", "0", "1", "0"],
         ["6", "1", "1", "0", "0"],
         ["7", "1", "1", "1", "1"]]) := by
  refine ⟨substituteSymbols_eq_map, ?_⟩
  refine ⟨BExpr.and (BExpr.and (BExpr.var "A") (BExpr.var "B")) (BExpr.var "C"), rfl, ?_, rfl⟩
  intro env
  simp only [BExpr.eval]

/-- C5: end-to-end scenarios — A*B yields variables [A, B] with function
values 0, 0, 0, 1 down the rows, and the negated-A-or-B input yields
variables [A, B] with function values 1, 1, 0, 1. -/
theorem C5_round_trip_scenarios :
    (∃ e : BExpr, parse_boolean_expression "A*B" = Except.ok (e, ["A", "B"]) ∧
      generate_truth_table e ["A", "B"] =
        [["0", "0", "0", "0"], ["1", "0", "1", "0"],
         ["2", "1", "0", "0"], ["3", "1", "1", "1"]]) ∧
    (∃ e : BExpr, parse_boolean_expression "¬A+B" = Except.ok (e, ["A", "B"]) ∧
      generate_truth_table e ["A", "B"] =
        [["0", "0", "0", "1"], ["1", "0", "1", "1"],
         ["2", "1", "0", "0"], ["3", "1", "1", "1"]]) :=
  ⟨⟨BExpr.and (BExpr.var "A") (BExpr.var "B"), rfl, rfl⟩,
   ⟨BExpr.or (BExpr.not (BExpr.var "A")) (BExpr.var "B"), rfl, rfl⟩⟩

/-- C6 counterexample: on an input of only operator symbols and parentheses
the surfaced translation error is the malformed-expression wrapper carrying
the no-variables reason, not the bare no-variables message of its own. -/
theorem C6_no_vars_cex :
    parse_boolean_expression "¬()" = Except.error (invalidExprMsg "¬()" noVarsMsg) ∧
    parse_boolean_expression "¬()" ≠ Except.error noVarsMsg :=
  ⟨rfl, by
    intro h
    rw [show parse_boolean_expression "¬()" =
        Except.error (invalidExprMsg "¬()" noVarsMsg) from rfl] at h
    exact absurd (Except.error.inj h) (by decide)⟩

/-- C6 amended: for every input that strips to a nonempty string whose
substituted form holds no identifier token, translation fails, and the
surfaced message is the invalid-expression wrapper around the distinct
no-variables reason — the inner error of line 50 is re-raised wrapped by the
blanket handler of lines 61-62 rather than surfaced on its own. -/
theorem C6_no_vars_wrapped (input : String) (h1 : ¬ (pyStrip input = ""))
    (h2 : vars_names_of (substituteSymbols (pyStrip input)) = []) :
    parse_boolean_expression input =
      Except.error (invalidExprMsg (pyStrip input) noVarsMsg) := by
  simp only [parse_boolean_expression]
  rw [if_neg h1, if_pos h2]

/-- C6 witness: the amended statement applied at a concrete symbols-only
input. -/
theorem C6_no_vars_wrapped_witness :
    parse_boolean_expression "()" = Except.error (invalidExprMsg "()" noVarsMsg) :=
  C6_no_vars_wrapped "()" (by decide) (by decide)

/-- C7 counterexample: an entered line with a trailing space produces a
caption holding the stripped text, not the text exactly as entered. -/
theorem C7_caption_cex :
    (runOnce "A ").map DocxDoc.caption = some "Boolean function: A" ∧
    (runOnce "A ").map DocxDoc.caption ≠ some ("Boolean function: " ++ "A ") :=
  ⟨rfl, by decide⟩

/-- C7 amended: the caption of every successful run displays the
pre-translation expression text stripped of surrounding whitespace — hence
verbatim exactly when the entered text carries no surrounding whitespace. -/
theorem C7_caption_stripped (raw : String) (d : DocxDoc)
    (h : runOnce raw = some d) :
    d.caption = "Boolean function: " ++ pyStrip raw := by
  simp only [runOnce] at h
  by_cases h1 : pyStrip raw = ""
  · rw [if_pos h1] at h
    exact absurd h (by simp)
  · rw [if_neg h1] at h
    cases hp : parse_boolean_expression (pyStrip raw) with
    | error m =>
      rw [hp] at h
      exact absurd h (by simp)
    | ok pr =>
      rw [hp] at h
      cases pr with
      | mk e vs =>
        rw [← Option.some.inj h]
        rfl

/-- C7 witness: the amended statement applied at a concrete run. -/
theorem C7_caption_stripped_witness :
    ∃ d : DocxDoc, runOnce "A*B" = some d ∧
      d.caption = "Boolean function: " ++ pyStrip "A*B" := by
  refine ⟨_, rfl, ?_⟩
  exact C7_caption_stripped "A*B" _ rfl

/-- C8: every successful run renders a table whose header row is exactly the
index marker, the variable names in order and the function marker, and whose
total row count is 2 to the number of variables plus the header row. -/
theorem C8_table_shape (raw : String) (e : BExpr) (vs : List String)
    (h : parse_boolean_expression (pyStrip raw) = Except.ok (e, vs)) :
    ∃ d : DocxDoc, runOnce raw = some d ∧
      d.table.length = 2 ^ vs.length + 1 ∧
      d.table.head? = some ("№" :: vs ++ ["f"]) := by
  have h1 : ¬ (pyStrip raw = "") := by
    intro h0
    rw [h0] at h
    rw [show parse_boolean_expression "" = Except.error emptyExprMsg from rfl] at h
    exact Except.noConfusion h
  refine ⟨create_docx_table (generate_truth_table e vs) vs (pyStrip raw), ?_, ?_, ?_⟩
  · simp only [runOnce]
    rw [if_neg h1, h]
  · simp [create_docx_table, generate_truth_table_length]
  · rfl

/-- C8 witness: the header-and-count theorem applied at a concrete run. -/
theorem C8_table_shape_witness :
    ∃ d : DocxDoc, runOnce "A*B" = some d ∧
      d.table.length = 2 ^ (["A", "B"] : List String).length + 1 ∧
      d.table.head? = some ("№" :: ["A", "B"] ++ ["f"]) :=
  C8_table_shape "A*B" (BExpr.and (BExpr.var "A") (BExpr.var "B")) ["A", "B"] rfl

/-- C9: whenever parsing the stripped input fails the loop reprompts and no
document is produced — the renderer is never invoked — and an input with
unbalanced parentheses fails with the invalid-expression wrapper. -/
theorem C9_parse_failure_no_artifact :
    (∀ raw m : String,
      parse_boolean_expression (pyStrip raw) = Except.error m → runOnce raw = none) ∧
    (∃ m : String, parse_boolean_expression "(A" = Except.error (invalidExprMsg "(A" m)) := by
  constructor
  · intro raw m h
    simp only [runOnce]
    by_cases h1 : pyStrip raw = ""
    · rw [if_pos h1]
    · rw [if_neg h1, h]
  · exact ⟨"unbalanced parentheses", rfl⟩

/-- C9 witness: the no-artifact theorem applied at the unbalanced input. -/
theorem C9_parse_failure_no_artifact_witness : runOnce "(A" = none :=
  C9_parse_failure_no_artifact.1 "(A" (invalidExprMsg "(A" "unbalanced parentheses") rfl

/-- C10: every row of the table for N variables is a list of exactly N + 2
strings — the decimal index string, then each assignment digit as a 0-or-1
string, then the function value string, itself 0 or 1 because the evaluated
result passes through int(bool(..)). -/
theorem C10_row_shape (e : BExpr) (vs : List String) (i : Nat)
    (hi : i < 2 ^ vs.length) (row : List String)
    (h : (generate_truth_table e vs)[i]? = some row) :
    row.length = vs.length + 2 ∧ row.head? = some (toString i) ∧
    ∀ x ∈ row.tail, x = "0" ∨ x = "1" := by
  rw [generate_truth_table_getElem? e vs i hi] at h
  rw [← Option.some.inj h]
  refine ⟨by simp [natBits_length], rfl, ?_⟩
  intro x hx
  simp only [List.tail_cons] at hx
  rcases List.mem_append.mp hx with hx | hx
  · rcases List.mem_map.mp hx with ⟨v, hv, rfl⟩
    rcases natBits_mem vs.length i v hv with rfl | rfl
    · exact Or.inl rfl
    · exact Or.inr rfl
  · rcases List.mem_singleton.mp hx with rfl
    cases BExpr.eval e (assignOf vs (natBits vs.length i)) with
    | false => exact Or.inl rfl
    | true => exact Or.inr rfl

/-- C10 witness: the row-shape theorem applied at a concrete table row. -/
theorem C10_row_shape_witness :
    (["1", "0", "1", "0"] : List String).length = (["A", "B"] : List String).length + 2 ∧
    (["1", "0", "1", "0"] : List String).head? = some (toString 1) ∧
    ∀ x ∈ (["1", "0", "1", "0"] : List String).tail, x = "0" ∨ x = "1" :=
  C10_row_shape (BExpr.and (BExpr.var "A") (BExpr.var "B")) ["A", "B"] 1 (by decide)
    ["1", "0", "1", "0"] rfl
